import Mathlib

/-!
Shallow embedding of `downloadfullfinancedata.py` (Indian stock market bulk
data downloader).

Modelling conventions:
* Timestamps are integers counted in whole days (the script only ever uses
  `datetime.now()` and `timedelta(days = years * 365)`, and the claims are
  stated in days).
* The external quote provider (`yf.download`) is modelled as an oracle
  `Fetch : String → Int → Int → FetchResult`; a Python exception raised by
  the fetch/write block is the `FetchResult.error` case.
* Side effects (network fetch attempts, CSV writes, `time.sleep`) are made
  observable as an explicit `Event` trace returned next to each function's
  Python return value.
* Python's `str.replace(old, new)` (replace every left-most non-overlapping
  occurrence) is embedded as `replaceList` on `List Char`, driven by a fuel
  argument equal to the string length so that it is structurally recursive
  and computable.
-/

namespace StockData

/-- One OHLCV row of a downloaded time series.  The script never inspects
row contents (only emptiness and row count), so the fields are opaque
integers. -/
structure Row where
  dateVal : Int
  openVal : Int
  highVal : Int
  lowVal : Int
  closeVal : Int
  volumeVal : Int
deriving DecidableEq, Repr

/-- Result of one `yf.download` call: a (possibly empty) series of rows, or
an error (a raised exception / transport failure). -/
inductive FetchResult where
  | series (rows : List Row)
  | error (msg : String)
deriving DecidableEq, Repr

/-- The external quote provider, as an oracle from (symbol, start, end). -/
abbrev Fetch := String → Int → Int → FetchResult

/-- A CSV file write: destination path and the rows serialized. -/
structure FileWrite where
  path : String
  rows : List Row
deriving DecidableEq, Repr

/-- Observable side effects of the downloader, in execution order. -/
inductive Event where
  | fetch (symbol : String)
  | write (w : FileWrite)
  | sleep (ms : Nat)
deriving DecidableEq, Repr

/-- Fuelled core of Python `str.replace`: scan left to right; whenever the
remainder starts with the (non-empty) pattern, emit the replacement and skip
the pattern; otherwise keep the current character.  `fuel ≥ length` makes the
recursion structural without changing the result. -/
def replaceListAux (pat repl : List Char) : Nat → List Char → List Char
  | _, [] => []
  | 0, l => l
  | fuel + 1, c :: rest =>
    if pat ≠ [] ∧ (c :: rest).take pat.length = pat then
      repl ++ replaceListAux pat repl fuel (rest.drop (pat.length - 1))
    else
      c :: replaceListAux pat repl fuel rest

/-- Python `s.replace(pat, repl)` on character lists. -/
def replaceList (pat repl l : List Char) : List Char :=
  replaceListAux pat repl l.length l

/-- The filename stem: `symbol.replace('.NS', '').replace('.BO', '')` from
`download_single_stock` (line 149). -/
def clean_symbol (symbol : String) : String :=
  String.mk (replaceList ['.', 'B', 'O'] []
    (replaceList ['.', 'N', 'S'] [] symbol.data))

/-- Source `_get_fallback_nifty50` (lines 87-100): the hardcoded fallback list. -/
def get_fallback_nifty50 : List String :=
  [ "ADANIPORTS.NS", "ASIANPAINT.NS", "AXISBANK.NS", "BAJAJ-AUTO.NS",
    "BAJFINANCE.NS", "BAJAJFINSV.NS", "BPCL.NS", "BHARTIARTL.NS",
    "CIPLA.NS", "COALINDIA.NS", "DRREDDY.NS", "EICHERMOT.NS",
    "GRASIM.NS", "HCLTECH.NS", "HDFCBANK.NS", "HDFCLIFE.NS",
    "HEROMOTOCO.NS", "HINDALCO.NS", "HINDUNILVR.NS", "ICICIBANK.NS",
    "INDUSINDBK.NS", "INFY.NS", "ITC.NS", "JSWSTEEL.NS",
    "KOTAKBANK.NS", "LT.NS", "M&M.NS", "MARUTI.NS", "NESTLEIND.NS",
    "NTPC.NS", "ONGC.NS", "POWERGRID.NS", "RELIANCE.NS", "SBIN.NS",
    "SUNPHARMA.NS", "TATAMOTORS.NS", "TATASTEEL.NS", "TCS.NS",
    "TECHM.NS", "TITAN.NS", "ULTRACEMCO.NS", "WIPRO.NS",
    "ADANIENT.NS", "APOLLOHOSP.NS", "BRITANNIA.NS", "DIVISLAB.NS",
    "HDFCLIFE.NS", "LTIM.NS", "SBILIFE.NS", "TATACONSUM.NS" ]

/-- Source `get_nifty50_stocks` (lines 59-77): the remote constituent-list fetch is
an `Except` value (ok: the parsed `Symbol` column; error: any exception from
the request/parse).  On success each base ticker gets the `.NS` suffix; on
any failure the hardcoded fallback is returned. -/
def get_nifty50_stocks (remote : Except String (List String)) : List String :=
  match remote with
  | Except.ok symbols => symbols.map (fun s => s ++ ".NS")
  | Except.error _ => get_fallback_nifty50

/-- Source `get_sensex30_stocks` (lines 102-119): fixed list, `.BO` suffix. -/
def get_sensex30_stocks : List String :=
  [ "RELIANCE.BO", "TCS.BO", "HDFCBANK.BO", "INFY.BO", "ICICIBANK.BO",
    "HINDUNILVR.BO", "ITC.BO", "SBIN.BO", "BHARTIARTL.BO", "BAJFINANCE.BO",
    "KOTAKBANK.BO", "LT.BO", "AXISBANK.BO", "ASIANPAINT.BO", "MARUTI.BO",
    "SUNPHARMA.BO", "TITAN.BO", "ULTRACEMCO.BO", "NESTLEIND.BO",
    "TATAMOTORS.BO", "M&M.BO", "HCLTECH.BO", "POWERGRID.BO", "NTPC.BO",
    "WIPRO.BO", "TATASTEEL.BO", "BAJAJFINSV.BO", "TECHM.BO",
    "INDUSINDBK.BO", "JSWSTEEL.BO" ]

/-- Source `download_single_stock` (lines 121-162): fetch one symbol; if the series
is non-empty, write `<save_path>/<clean_symbol>.csv` and return `true`; if
empty, or if the fetch raised (the `error` case), return `false` with no
write.  The first component is the event trace, the second the Python
return value. -/
def download_single_stock (fetchC : Fetch) (symbol : String)
    (start_date end_date : Int) (save_path : String) : List Event × Bool :=
  match fetchC symbol start_date end_date with
  | FetchResult.series data =>
    if data.isEmpty then
      ([Event.fetch symbol], false)
    else
      ([Event.fetch symbol,
        Event.write ⟨save_path ++ "/" ++ clean_symbol symbol ++ ".csv", data⟩],
       true)
  | FetchResult.error _ => ([Event.fetch symbol], false)

/-- The `for` loop of `bulk_download_stocks` (lines 183-190): process the
symbols in order; count successes; `time.sleep(0.5)` (500 ms) after every
symbol regardless of outcome. -/
def bulkLoop (fetchC : Fetch) (save_path : String)
    (start_date end_date : Int) : List String → List Event × Nat
  | [] => ([], 0)
  | stock :: rest =>
    let res := download_single_stock fetchC stock start_date end_date save_path
    let r := bulkLoop fetchC save_path start_date end_date rest
    (res.1 ++ Event.sleep 500 :: r.1, (if res.2 then 1 else 0) + r.2)

/-- Source `bulk_download_stocks` (lines 164-193): returns the event trace together
with the Python return value `(success_count, total_stocks)`. -/
def bulk_download_stocks (fetchC : Fetch) (stock_list : List String)
    (save_path : String) (start_date end_date : Int) :
    List Event × Nat × Nat :=
  let r := bulkLoop fetchC save_path start_date end_date stock_list
  (r.1, r.2, stock_list.length)

/-- Source `indices_config` (lines 204-208), in insertion order. -/
def indices_config : List (String × String) :=
  [("^NSEI", "NIFTY50"), ("^BSESN", "SENSEX"), ("^NSEBANK", "BANKNIFTY")]

/-- One iteration of the `download_market_indices` loop (lines 212-225):
fetch; write `<base_path>/<name>_index.csv` when non-empty; log and continue
on empty or error.  No sleep anywhere in this loop. -/
def indexEvents (fetchC : Fetch) (base_path : String)
    (start_date end_date : Int) (p : String × String) : List Event :=
  match fetchC p.1 start_date end_date with
  | FetchResult.series data =>
    if data.isEmpty then
      [Event.fetch p.1]
    else
      [Event.fetch p.1,
       Event.write ⟨base_path ++ "/" ++ p.2 ++ "_index.csv", data⟩]
  | FetchResult.error _ => [Event.fetch p.1]

/-- Source `download_market_indices` (lines 195-225): event trace of the index
loop. -/
def download_market_indices (fetchC : Fetch) (base_path : String)
    (start_date end_date : Int) : List Event :=
  indices_config.flatMap (indexEvents fetchC base_path start_date end_date)

/-- The `stats` dictionary built by `run_full_download` (lines 247-284). -/
structure Stats where
  start_date : Int
  end_date : Int
  indices_downloaded : Nat
  nifty_success : Nat
  nifty_total : Nat
  sensex_success : Nat
  sensex_total : Nat
deriving DecidableEq, Repr

/-- Source `run_full_download` (lines 227-289): `end_date = now`,
`start_date = end_date - years * 365` days; phase 1 downloads the indices
and sets `stats['indices_downloaded'] = 3` unconditionally (line 262);
phases 2 and 3 bulk-download the two groups into `<base>/nifty50` and
`<base>/sensex30`.  Returns the stats and the full event trace. -/
def run_full_download (fetchC : Fetch)
    (niftyRemote : Except String (List String)) (now : Int) (years : Nat)
    (base_path : String) : Stats × List Event :=
  let end_date : Int := now
  let start_date : Int := end_date - (years : Int) * 365
  let idxEvents := download_market_indices fetchC base_path start_date end_date
  let nifty_stocks := get_nifty50_stocks niftyRemote
  let niftyRes := bulk_download_stocks fetchC nifty_stocks
    (base_path ++ "/nifty50") start_date end_date
  let sensex_stocks := get_sensex30_stocks
  let sensexRes := bulk_download_stocks fetchC sensex_stocks
    (base_path ++ "/sensex30") start_date end_date
  ({ start_date := start_date
     end_date := end_date
     indices_downloaded := 3
     nifty_success := niftyRes.2.1
     nifty_total := niftyRes.2.2
     sensex_success := sensexRes.2.1
     sensex_total := sensexRes.2.2 },
   idxEvents ++ niftyRes.1 ++ sensexRes.1)

/-- Log levels used by the script. -/
inductive LogLevel where
  | info
  | warning
  | error
deriving DecidableEq, Repr

/-- One emitted log line; `exc_info` records whether the full traceback was
attached (`exc_info=True`). -/
structure LogLine where
  level : LogLevel
  msg : String
  exc_info : Bool
deriving DecidableEq, Repr

/-- How a run of `main()` ended: normally, by `KeyboardInterrupt`, or by an
unanticipated exception escaping the run controller. -/
inductive RunError where
  | keyboardInterrupt
  | exception (msg : String)
deriving DecidableEq, Repr

/-- What the `__main__` guard produces: the log lines it emits and the
process exit status. -/
structure GuardResult where
  logs : List LogLine
  exitCode : Nat
deriving DecidableEq, Repr

/-- The `__main__` guard (lines 328-338): `KeyboardInterrupt` is logged as a
warning; any other exception is logged at error level with `exc_info=True`.
Both handlers swallow the exception and fall off the end of the script, so
the interpreter exits with status 0 in every case. -/
def main_guard (result : Except RunError Stats) : GuardResult :=
  match result with
  | Except.ok _ => { logs := [], exitCode := 0 }
  | Except.error RunError.keyboardInterrupt =>
    { logs := [{ level := LogLevel.warning
                 msg := "\nDownload interrupted by user"
                 exc_info := false }]
      exitCode := 0 }
  | Except.error (RunError.exception m) =>
    { logs := [{ level := LogLevel.error
                 msg := "Critical error during execution: " ++ m
                 exc_info := true }]
      exitCode := 0 }

/-- Symbols for which a fetch was attempted, in order, from a trace. -/
def fetchedSymbols (tr : List Event) : List String :=
  tr.filterMap fun e =>
    match e with
    | Event.fetch s => some s
    | _ => none

/-- The sleep durations (ms) occurring in a trace, in order. -/
def sleepsOf (tr : List Event) : List Nat :=
  tr.filterMap fun e =>
    match e with
    | Event.sleep ms => some ms
    | _ => none

/-- The file writes occurring in a trace, in order. -/
def writesOf (tr : List Event) : List FileWrite :=
  tr.filterMap fun e =>
    match e with
    | Event.write w => some w
    | _ => none

/-- Decides whether `pat` occurs as a contiguous sublist anywhere in `l`. -/
def hasMatch (pat : List Char) : List Char → Bool
  | [] => false
  | c :: rest => ((c :: rest).take pat.length == pat) || hasMatch pat rest

/-- Decides whether `pat` occurs at one of the first `n` positions of `l`. -/
def hasMatchWithin (pat : List Char) : List Char → Nat → Bool
  | _, 0 => false
  | l, n + 1 => (l.take pat.length == pat) || hasMatchWithin pat l.tail n

/-- A concrete data row, used to build test oracles. -/
def sampleRow : Row :=
  { dateVal := 0, openVal := 1, highVal := 2, lowVal := 3, closeVal := 4,
    volumeVal := 5 }

/-- Test oracle: the fetch for symbol `B` raises (transport error); every
other symbol yields one row. -/
def fetchFailB : Fetch := fun s _ _ =>
  if s = ("B") then FetchResult.error ("network down")
  else FetchResult.series [sampleRow]

/-- Test oracle: every fetch returns an empty series (no data). -/
def fetchEmpty : Fetch := fun _ _ _ => FetchResult.series []

/-! Helper lemmas about the embedded string replacement. -/

theorem replaceListAux_no_match (pat repl : List Char) :
    ∀ (fuel : Nat) (l : List Char), l.length ≤ fuel →
      hasMatch pat l = false → replaceListAux pat repl fuel l = l := by
  intro fuel
  induction fuel with
  | zero =>
    intro l hlen _
    have hl : l = [] := List.length_eq_zero.mp (Nat.le_zero.mp hlen)
    subst hl
    rfl
  | succ f ih =>
    intro l hlen hm
    cases l with
    | nil => rfl
    | cons c rest =>
      simp only [hasMatch, Bool.or_eq_false_iff, beq_eq_false_iff_ne] at hm
      have hr : rest.length ≤ f := by
        simp only [List.length_cons] at hlen
        omega
      have ihr := ih rest hr hm.2
      simp [replaceListAux, hm.1, ihr]

theorem replaceListAux_strip (pat : List Char) (hp : pat ≠ []) :
    ∀ (base : List Char) (fuel : Nat), (base ++ pat).length ≤ fuel →
      hasMatchWithin pat (base ++ pat) base.length = false →
      replaceListAux pat [] fuel (base ++ pat) = base := by
  intro base
  induction base with
  | nil =>
    intro fuel hlen _
    cases pat with
    | nil => exact absurd rfl hp
    | cons p pr =>
      cases fuel with
      | zero => simp at hlen
      | succ f =>
        have ht : (p :: pr).take (p :: pr).length = p :: pr :=
          List.take_length (p :: pr)
        simp [replaceListAux, ht, List.length_cons, Nat.add_sub_cancel,
          List.drop_length]
  | cons b bs ih =>
    intro fuel hlen hw
    simp only [List.cons_append, hasMatchWithin, List.tail_cons,
      Bool.or_eq_false_iff, beq_eq_false_iff_ne] at hw
    cases fuel with
    | zero => simp at hlen
    | succ f =>
      have hr : (bs ++ pat).length ≤ f := by
        simp only [List.cons_append, List.length_cons] at hlen
        omega
      have ihh := ih f hr hw.2
      simp only [List.cons_append]
      simp [replaceListAux, hw.1, ihh]

theorem replaceList_no_match (pat repl l : List Char)
    (h : hasMatch pat l = false) : replaceList pat repl l = l :=
  replaceListAux_no_match pat repl l.length l (Nat.le_refl _) h

theorem replaceList_strip (pat : List Char) (hp : pat ≠ [])
    (base : List Char)
    (hw : hasMatchWithin pat (base ++ pat) base.length = false) :
    replaceList pat [] (base ++ pat) = base :=
  replaceListAux_strip pat hp base (base ++ pat).length (Nat.le_refl _) hw

/-! Helper lemmas about the orchestrator traces. -/

theorem fetchedSymbols_single (fetchC : Fetch) (s : String) (sd ed : Int)
    (p : String) :
    fetchedSymbols (download_single_stock fetchC s sd ed p).1 = [s] := by
  rcases h : fetchC s sd ed with data | m
  · cases data <;> simp [download_single_stock, h, fetchedSymbols]
  · simp [download_single_stock, h, fetchedSymbols]

theorem sleepsOf_single (fetchC : Fetch) (s : String) (sd ed : Int)
    (p : String) :
    sleepsOf (download_single_stock fetchC s sd ed p).1 = [] := by
  rcases h : fetchC s sd ed with data | m
  · cases data <;> simp [download_single_stock, h, sleepsOf]
  · simp [download_single_stock, h, sleepsOf]

theorem fetchedSymbols_bulkLoop (fetchC : Fetch) (p : String) (sd ed : Int) :
    ∀ l : List String, fetchedSymbols (bulkLoop fetchC p sd ed l).1 = l := by
  intro l
  induction l with
  | nil => simp [bulkLoop, fetchedSymbols]
  | cons s rest ih =>
    have h1 := fetchedSymbols_single fetchC s sd ed p
    simp only [fetchedSymbols] at h1 ih ⊢
    simp [bulkLoop, List.filterMap_append, h1, ih]

theorem sleepsOf_bulkLoop (fetchC : Fetch) (p : String) (sd ed : Int) :
    ∀ l : List String,
      sleepsOf (bulkLoop fetchC p sd ed l).1 = List.replicate l.length 500 := by
  intro l
  induction l with
  | nil => simp [bulkLoop, sleepsOf]
  | cons s rest ih =>
    have h1 := sleepsOf_single fetchC s sd ed p
    simp only [sleepsOf] at h1 ih ⊢
    simp [bulkLoop, List.filterMap_append, h1, ih, List.replicate_succ]

theorem bulkLoop_success_le (fetchC : Fetch) (p : String) (sd ed : Int) :
    ∀ l : List String, (bulkLoop fetchC p sd ed l).2 ≤ l.length := by
  intro l
  induction l with
  | nil => simp [bulkLoop]
  | cons s rest ih =>
    simp only [bulkLoop, List.length_cons]
    split <;> omega

theorem sleepsOf_indexEvents (fetchC : Fetch) (base : String) (sd ed : Int)
    (p : String × String) :
    sleepsOf (indexEvents fetchC base sd ed p) = [] := by
  rcases h : fetchC p.1 sd ed with data | m
  · cases data <;> simp [indexEvents, h, sleepsOf]
  · simp [indexEvents, h, sleepsOf]

theorem sleepsOf_indices (fetchC : Fetch) (base : String) (sd ed : Int) :
    sleepsOf (download_market_indices fetchC base sd ed) = [] := by
  have key : ∀ cfg : List (String × String),
      sleepsOf (cfg.flatMap (indexEvents fetchC base sd ed)) = [] := by
    intro cfg
    induction cfg with
    | nil => simp [sleepsOf]
    | cons q rest ih =>
      have h := sleepsOf_indexEvents fetchC base sd ed q
      simp only [sleepsOf] at h ih ⊢
      simp [List.flatMap_cons, List.filterMap_append, h, ih]
  exact key indices_config

/-! The claims. -/

/-- C1: if the fetch for the symbol at position `k` raises or returns an
error, `bulk_download_stocks` does not abort: the sequence of attempted
fetches equals the symbol list itself (so every symbol after position `k` is
still attempted exactly once, in order, and the failed symbol is never
retried), and the returned total equals the length of the list. -/
theorem C1_failure_isolation (fetchC : Fetch) (stock_list : List String)
    (save_path : String) (sd ed : Int) (k : Nat) (sym msg : String)
    (hk : stock_list[k]? = some sym)
    (hfail : fetchC sym sd ed = FetchResult.error msg) :
    fetchedSymbols (bulk_download_stocks fetchC stock_list save_path sd ed).1
        = stock_list ∧
    (bulk_download_stocks fetchC stock_list save_path sd ed).2.2
        = stock_list.length := by
  refine ⟨?_, rfl⟩
  simpa [bulk_download_stocks] using
    fetchedSymbols_bulkLoop fetchC save_path sd ed stock_list

/-- Witness for C1: a 3-symbol list whose middle fetch errors. -/
theorem C1_failure_isolation_witness :
    ((["A", "B", "C"] : List String)[1]? = some ("B")) ∧
    (fetchFailB ("B") 0 10 = FetchResult.error ("network down")) ∧
    (fetchedSymbols
        (bulk_download_stocks fetchFailB ["A", "B", "C"] ("data/nifty50") 0 10).1
          = ["A", "B", "C"] ∧
     (bulk_download_stocks fetchFailB ["A", "B", "C"] ("data/nifty50") 0 10).2.2
          = 3) :=
  ⟨by decide, by decide,
   C1_failure_isolation fetchFailB ["A", "B", "C"] ("data/nifty50") 0 10 1
     ("B") ("network down") (by decide) (by decide)⟩

/-- C2: for every symbol list of length `N` and every oracle (any mix of
successes, empty results and errors), `bulk_download_stocks` returns
`(success, total)` with `total = N` and `0 ≤ success ≤ N`. -/
theorem C2_tally_bounds (fetchC : Fetch) (stock_list : List String)
    (save_path : String) (sd ed : Int) :
    (bulk_download_stocks fetchC stock_list save_path sd ed).2.2
        = stock_list.length ∧
    0 ≤ (bulk_download_stocks fetchC stock_list save_path sd ed).2.1 ∧
    (bulk_download_stocks fetchC stock_list save_path sd ed).2.1
        ≤ stock_list.length := by
  refine ⟨rfl, Nat.zero_le _, ?_⟩
  simpa [bulk_download_stocks] using
    bulkLoop_success_le fetchC save_path sd ed stock_list

/-- C3 counterexample: the code strips every occurrence of `.NS` and `.BO`,
not only the trailing exchange suffix: the symbol `TATA.NSTEEL.BO` yields
the stem `TATATEEL`, whereas removing only the trailing suffix would give
`TATA.NSTEEL`. -/
theorem C3_counterexample :
    clean_symbol ("TATA.NSTEEL.BO") = ("TATATEEL") ∧
    clean_symbol ("TATA.NSTEEL.BO") ≠ ("TATA.NSTEEL") := by
  decide

/-- C3 (amended): the stem is obtained by deleting every occurrence of
`.NS` and then every occurrence of `.BO` from the symbol; whenever these
substrings occur nowhere except as the trailing exchange suffix, this
coincides with removing exactly that suffix — in particular the stem of
`M&M.NS` is `M&M` and the stem of `M&M.BO` is `M&M`.  Occurrences that are
not the trailing suffix are removed as well, not left intact. -/
theorem C3_suffix_strip_amended (base : List Char)
    (h1 : hasMatchWithin ['.', 'N', 'S'] (base ++ ['.', 'N', 'S'])
        base.length = false)
    (h2 : hasMatch ['.', 'B', 'O'] base = false)
    (h3 : hasMatch ['.', 'N', 'S'] (base ++ ['.', 'B', 'O']) = false)
    (h4 : hasMatchWithin ['.', 'B', 'O'] (base ++ ['.', 'B', 'O'])
        base.length = false) :
    clean_symbol (String.mk (base ++ ['.', 'N', 'S'])) = String.mk base ∧
    clean_symbol (String.mk (base ++ ['.', 'B', 'O'])) = String.mk base := by
  constructor
  · have e1 : replaceList ['.', 'N', 'S'] [] (base ++ ['.', 'N', 'S'])
        = base := replaceList_strip _ (by simp) base h1
    have e2 : replaceList ['.', 'B', 'O'] [] base = base :=
      replaceList_no_match _ _ base h2
    have hdef : clean_symbol (String.mk (base ++ ['.', 'N', 'S']))
        = String.mk (replaceList ['.', 'B', 'O'] []
            (replaceList ['.', 'N', 'S'] [] (base ++ ['.', 'N', 'S']))) := rfl
    rw [hdef, e1, e2]
  · have e3 : replaceList ['.', 'N', 'S'] [] (base ++ ['.', 'B', 'O'])
        = base ++ ['.', 'B', 'O'] := replaceList_no_match _ _ _ h3
    have e4 : replaceList ['.', 'B', 'O'] [] (base ++ ['.', 'B', 'O'])
        = base := replaceList_strip _ (by simp) base h4
    have hdef : clean_symbol (String.mk (base ++ ['.', 'B', 'O']))
        = String.mk (replaceList ['.', 'B', 'O'] []
            (replaceList ['.', 'N', 'S'] [] (base ++ ['.', 'B', 'O']))) := rfl
    rw [hdef, e3, e4]

/-- Witness for the amended C3: the spec's own examples, base `M&M`. -/
theorem C3_suffix_strip_amended_witness :
    (hasMatchWithin ['.', 'N', 'S'] (['M', '&', 'M'] ++ ['.', 'N', 'S'])
        (['M', '&', 'M'] : List Char).length = false) ∧
    (hasMatch ['.', 'B', 'O'] ['M', '&', 'M'] = false) ∧
    (hasMatch ['.', 'N', 'S'] (['M', '&', 'M'] ++ ['.', 'B', 'O']) = false) ∧
    (hasMatchWithin ['.', 'B', 'O'] (['M', '&', 'M'] ++ ['.', 'B', 'O'])
        (['M', '&', 'M'] : List Char).length = false) ∧
    (clean_symbol ("M&M.NS") = ("M&M") ∧ clean_symbol ("M&M.BO") = ("M&M")) :=
  ⟨by decide, by decide, by decide, by decide,
   C3_suffix_strip_amended ['M', '&', 'M'] (by decide) (by decide) (by decide)
     (by decide)⟩

/-- C4: whenever the remote constituent-list fetch fails for any reason
(modelled as any `Except.error`), `get_nifty50_stocks` returns the hardcoded
static fallback list exactly and unmodified, and that list is non-empty.
(The embedding is a total function, so no exception escapes the call.) -/
theorem C4_fallback_list (e : String) :
    get_nifty50_stocks (Except.error e) = get_fallback_nifty50 ∧
    get_fallback_nifty50 ≠ [] :=
  ⟨rfl, by decide⟩

/-- C5: when the fetch returns an empty series, `download_single_stock`
performs no file write and returns `false`, and the success count of the
enclosing batch loop is the same as if the symbol were absent. -/
theorem C5_empty_series (fetchC : Fetch) (sym : String) (sd ed : Int)
    (save_path : String) (rest : List String)
    (h : fetchC sym sd ed = FetchResult.series []) :
    download_single_stock fetchC sym sd ed save_path
        = ([Event.fetch sym], false) ∧
    writesOf (download_single_stock fetchC sym sd ed save_path).1 = [] ∧
    (bulkLoop fetchC save_path sd ed (sym :: rest)).2
        = (bulkLoop fetchC save_path sd ed rest).2 := by
  have hd : download_single_stock fetchC sym sd ed save_path
      = ([Event.fetch sym], false) := by
    simp [download_single_stock, h]
  refine ⟨hd, by simp [hd, writesOf], ?_⟩
  simp [bulkLoop, hd]

/-- Witness for C5: the all-empty oracle at a concrete symbol. -/
theorem C5_empty_series_witness :
    (fetchEmpty ("WIPRO.NS") 0 10 = FetchResult.series []) ∧
    (download_single_stock fetchEmpty ("WIPRO.NS") 0 10 ("data/nifty50")
        = ([Event.fetch ("WIPRO.NS")], false) ∧
     writesOf (download_single_stock fetchEmpty ("WIPRO.NS") 0 10
        ("data/nifty50")).1 = [] ∧
     (bulkLoop fetchEmpty ("data/nifty50") 0 10 ["WIPRO.NS", "TCS.NS"]).2
        = (bulkLoop fetchEmpty ("data/nifty50") 0 10 ["TCS.NS"]).2) :=
  ⟨rfl, C5_empty_series fetchEmpty ("WIPRO.NS") 0 10 ("data/nifty50")
    ["TCS.NS"] rfl⟩

/-- C6: the date range computed by `run_full_download` satisfies
`start = end - years * 365` days; for `years = 10` this gives
`end - start = 3650` days (within the claim's ±1-day tolerance) and
`start < end`. -/
theorem C6_date_range (fetchC : Fetch)
    (niftyRemote : Except String (List String)) (now : Int)
    (base_path : String) :
    (run_full_download fetchC niftyRemote now 10 base_path).1.start_date
        = (run_full_download fetchC niftyRemote now 10 base_path).1.end_date
            - 10 * 365 ∧
    (run_full_download fetchC niftyRemote now 10 base_path).1.end_date
        - (run_full_download fetchC niftyRemote now 10 base_path).1.start_date
        = 3650 ∧
    (run_full_download fetchC niftyRemote now 10 base_path).1.start_date
        < (run_full_download fetchC niftyRemote now 10 base_path).1.end_date := by
  have hs : (run_full_download fetchC niftyRemote now 10 base_path).1.start_date
      = now - 10 * 365 := rfl
  have he : (run_full_download fetchC niftyRemote now 10 base_path).1.end_date
      = now := rfl
  rw [hs, he]
  omega

/-- C7: in `bulk_download_stocks` a fixed 500 ms delay is executed after
every symbol regardless of outcome, including after the last one — the
sleeps in the trace are exactly `length` copies of 500 ms — while
`download_market_indices` performs no sleep at all. -/
theorem C7_throttling (fetchC : Fetch) (stock_list : List String)
    (save_path : String) (sd ed : Int) (base_path : String) (sd2 ed2 : Int) :
    sleepsOf (bulk_download_stocks fetchC stock_list save_path sd ed).1
        = List.replicate stock_list.length 500 ∧
    sleepsOf (download_market_indices fetchC base_path sd2 ed2) = [] := by
  constructor
  · simpa [bulk_download_stocks] using
      sleepsOf_bulkLoop fetchC save_path sd ed stock_list
  · exact sleepsOf_indices fetchC base_path sd2 ed2

/-- C8 counterexample: an unanticipated exception reaching the `__main__`
guard is caught and only logged; the script then falls off its end, so the
process exit status is 0, not non-zero as claimed. -/
theorem C8_counterexample :
    (main_guard (Except.error (RunError.exception ("database corrupted")))).exitCode
      = 0 := rfl

/-- C8 (amended): an unanticipated failure outside the per-symbol, per-index
and catalog try-scopes is surfaced to the top-level handler and logged at
error level with full diagnostic detail (`exc_info=True`), but the handler
swallows it, so the process terminates normally with exit status zero. -/
theorem C8_top_level_amended (m : String) :
    main_guard (Except.error (RunError.exception m))
      = { logs := [{ level := LogLevel.error,
                     msg := "Critical error during execution: " ++ m,
                     exc_info := true }],
          exitCode := 0 } := rfl

/-- C9: `run_full_download` records `indices_downloaded = 3` in the returned
stats as a constant, for every oracle, remote-list outcome, clock value,
year count and base path. -/
theorem C9_indices_constant (fetchC : Fetch)
    (niftyRemote : Except String (List String)) (now : Int) (years : Nat)
    (base_path : String) :
    (run_full_download fetchC niftyRemote now years base_path).1.indices_downloaded
      = 3 := rfl

/-- C10: the hardcoded fallback Nifty 50 list has exactly 50 entries but
only 49 distinct symbols: `HDFCLIFE.NS` appears twice, so the list is not
duplicate-free. -/
theorem C10_fallback_duplicates :
    get_fallback_nifty50.length = 50 ∧
    get_fallback_nifty50.dedup.length = 49 ∧
    get_fallback_nifty50.count ("HDFCLIFE.NS") = 2 ∧
    ¬ get_fallback_nifty50.Nodup := by
  decide

end StockData
